import Mathlib

/-!
# Verification of the cc_validator card-number engine

Shallow embedding of `validate/views.py` (classes `ValidateCard`, `CreateCard`,
`DinersClub`, `Amex`) and theorems checking the specification's claims about it.

Conventions of the embedding:
* Python strings are `List Char`; `str.pop()` from the end of the entropy list is
  modelled by passing the reversed list and consuming its head.
* Python exceptions (`ValueError` from `int(...)`, `IndexError` from `[-1]`/`pop`,
  `KeyError` from dict lookup) are modelled with `Except PyErr`.
* `str(n)` for a natural number is `strNat n` (decimal digits, fuel-structural so
  that it reduces in the kernel); `int(c)` for one character is `pyInt c`.
-/

/-- The Python exception kinds the embedded code can raise. -/
inductive PyErr where
  | valueError
  | indexError
  | keyError
deriving DecidableEq

instance {ε α : Type} [DecidableEq ε] [DecidableEq α] : DecidableEq (Except ε α) := fun x y =>
  match x, y with
  | Except.ok a, Except.ok b =>
    if h : a = b then isTrue (by rw [h]) else isFalse (fun hh => h (Except.ok.inj hh))
  | Except.ok _, Except.error _ => isFalse (fun hh => Except.noConfusion hh)
  | Except.error _, Except.ok _ => isFalse (fun hh => Except.noConfusion hh)
  | Except.error a, Except.error b =>
    if h : a = b then isTrue (by rw [h]) else isFalse (fun hh => h (Except.error.inj hh))

/-- Python `int(c)` for a single character: its digit value, or `ValueError`. -/
def pyInt (c : Char) : Except PyErr Nat :=
  if c.isDigit then Except.ok (c.toNat - 48) else Except.error PyErr.valueError

/-- The digit value of a (digit) character, total version used in statements. -/
def pyDigitVal (c : Char) : Nat := c.toNat - 48

/-- Python `[int(d) for d in cs]`: left-to-right, first failure raises. -/
def intList : List Char → Except PyErr (List Nat)
  | [] => Except.ok []
  | c :: cs =>
    match pyInt c with
    | Except.error e => Except.error e
    | Except.ok v =>
      match intList cs with
      | Except.error e => Except.error e
      | Except.ok vs => Except.ok (v :: vs)

/-- The body of `_checksum`'s memo loop: double the digit at even 0-based index
    of the reversed prefix, subtracting 9 when the doubled value exceeds 9. -/
def luhnDouble (i d : Nat) : Nat :=
  if i % 2 = 0 then (if d * 2 > 9 then d * 2 - 9 else d * 2) else d

/-- `sum(memo.values())` of `_checksum`: sum of the transformed reversed prefix. -/
def luhnSum (ds : List Nat) : Nat :=
  (ds.enum.map (fun p => luhnDouble p.1 p.2)).sum

/-- Decimal digits of `n`, most significant first, by fuel-structural recursion
    (`fuel ≥ n` suffices; the value recursion is on `n / 10`). -/
def strNatAux : Nat → Nat → List Char
  | 0, _ => []
  | fuel + 1, n => if n = 0 then [] else strNatAux fuel (n / 10) ++ [Nat.digitChar (n % 10)]

/-- Python `str(n)` for a natural number `n`. -/
def strNat (n : Nat) : List Char :=
  if n = 0 then ['0'] else strNatAux n n

/-- `ValidateCard._checksum`: Luhn over the reversed prefix `card[:-1][::-1]`,
    returning the last character of `str(sum * 9)`.  The `getLastD` default is
    never used because `strNat` is never empty. -/
def checksum (card : List Char) : Except PyErr Char :=
  match intList card.dropLast.reverse with
  | Except.error e => Except.error e
  | Except.ok ds => Except.ok ((strNat (luhnSum ds * 9)).getLastD '0')

/-- `ValidateCard.__bool__`: compare the last character against `_checksum()`.
    An empty card number raises `IndexError` at `card_number[-1]`. -/
def boolCheck (card : List Char) : Except PyErr Bool :=
  match checksum card with
  | Except.error e => Except.error e
  | Except.ok cs =>
    match card.getLast? with
    | none => Except.error PyErr.indexError
    | some c => Except.ok (c == cs)

/-- The check digit that `boolCheck` accepts after prefix `s`:
    last decimal digit of `luhnSum * 9`. -/
def ckd (s : List Char) : Nat := luhnSum (s.reverse.map pyDigitVal) * 9 % 10

/-- `ValidateCard.major_map`. -/
def major_map : List (Char × String) := [
  ('1', "Airline industry"),
  ('2', "Airline industry"),
  ('3', "Travel/Entertainment"),
  ('4', "Banking/Financial"),
  ('5', "Banking/Financial"),
  ('6', "Merchandising & Banking/Financial"),
  ('7', "Petroleum industries"),
  ('8', "Health, telecomm and future"),
  ('9', "For assignment by standards bodies")]

/-- `issuer_map['Diners Club']`. -/
def dinersRanges : List (List Char) := ["30".toList]

/-- `issuer_map['American Express']`. -/
def amexRanges : List (List Char) := ["34".toList, "37".toList]

/-- `issuer_map['JCB']`. -/
def jcbRanges : List (List Char) := ["35".toList]

/-- `issuer_map['AAA']`. -/
def aaaRanges : List (List Char) := ["620".toList]

/-- `issuer_map['Discover']`: literals plus `str(n)` for
    `range(622126, 622925)`, `range(624000, 626999)`, `range(628200, 628899)`. -/
def discoverRanges : List (List Char) :=
  ["6011".toList, "64".toList, "65".toList] ++
  ((List.range' 622126 799).map strNat) ++
  ((List.range' 624000 2999).map strNat) ++
  ((List.range' 628200 699).map strNat)

/-- `issuer_map['Mastercard']`: `str(n)` for `range(2221, 2720)` plus literals. -/
def mastercardRanges : List (List Char) :=
  ((List.range' 2221 499).map strNat) ++
  ["51".toList, "52".toList, "53".toList, "55".toList]

/-- `issuer_map['Visa']`. -/
def visaRanges : List (List Char) := ["4".toList]

/-- `ValidateCard.issuer_map`, in declaration order. -/
def issuer_map : List (String × List (List Char)) := [
  ("Diners Club", dinersRanges),
  ("American Express", amexRanges),
  ("JCB", jcbRanges),
  ("AAA", aaaRanges),
  ("Discover", discoverRanges),
  ("Mastercard", mastercardRanges),
  ("Visa", visaRanges)]

/-- One pass of `_get_issuer`'s inner loop: the first issuer, in table order,
    whose range set contains the prefix `p`. -/
def findIssuerAt (p : List Char) : Option String :=
  (issuer_map.find? (fun e => decide (p ∈ e.2))).map (fun e => e.1)

/-- `_get_issuer`'s outer loop: grow `stack` one character at a time through
    `rest`, returning the first issuer found. -/
def getIssuerAux : List Char → List Char → Option String
  | _, [] => none
  | stack, c :: cs =>
    match findIssuerAt (stack ++ [c]) with
    | some i => some i
    | none => getIssuerAux (stack ++ [c]) cs

/-- `ValidateCard._get_issuer`. -/
def getIssuer (card : List Char) : Option String := getIssuerAux [] card

/-- Python `major_map[c]` as an option (`KeyError` when absent). -/
def lookupMajor (c : Char) : Option String :=
  (major_map.find? (fun p => p.1 == c)).map (fun p => p.2)

/-- The fields of `ValidateCard.__repr__`'s response dict; `issuer = none` models
    the "could not be found" message branch. -/
structure ValidateResponse where
  valid : Bool
  majorIndustry : String
  issuer : Option String
  personalDigits : List Char
  checkDigit : Char
deriving DecidableEq

/-- `ValidateCard.get`/`__repr__`: run `__bool__` (checksum then `card[-1]`),
    then build the response (`major_map[card[0]]`, `_get_issuer`, `card[7:-1]`). -/
def validateCard (card : List Char) : Except PyErr ValidateResponse :=
  match checksum card with
  | Except.error e => Except.error e
  | Except.ok cs =>
    match card.getLast? with
    | none => Except.error PyErr.indexError
    | some lastc =>
      match card.head? with
      | none => Except.error PyErr.indexError
      | some c0 =>
        match lookupMajor c0 with
        | none => Except.error PyErr.keyError
        | some mj =>
          Except.ok ⟨lastc == cs, mj, getIssuer card, (card.drop 7).dropLast, cs⟩

/-- `CreateCard._generate`'s inner `for j in range(10)` loop: append `str(j)`,
    keep it when `__bool__` holds, else remove it (`card[:-1]`) and try the next. -/
def tryDigits (card : List Char) : List Nat → Except PyErr (List Char)
  | [] => Except.ok card
  | j :: js =>
    let c := card ++ strNat j
    match boolCheck c with
    | Except.error e => Except.error e
    | Except.ok true => Except.ok c
    | Except.ok false => tryDigits c.dropLast js

/-- `CreateCard._generate`'s `while` loop.  `revDigits` is the entropy list
    reversed, so Python's `new_digits.pop()` (pop from the end) is the head;
    popping an empty list raises `IndexError`. -/
def genLoop (dc : Nat) : List Char → List Char → Except PyErr (List Char)
  | card, [] =>
    if card.length < dc then Except.error PyErr.indexError else Except.ok card
  | card, d :: rest =>
    if card.length < dc then
      match tryDigits (card ++ [d]) (List.range 10) with
      | Except.error e => Except.error e
      | Except.ok card2 => genLoop dc card2 rest
    else Except.ok card

/-- `CreateCard.get`'s issuer dispatch: `digit_count` is 14 for `DinersClub`,
    15 for `Amex`, and the inherited 16 otherwise. -/
def digitCountFor (issuer : Option String) : Nat :=
  if issuer = some "Diners Club" then 14
  else if issuer = some "American Express" then 15
  else 16

/-- The fields of `CreateCard.get`'s response dict. -/
structure GenerateResponse where
  valid : Bool
  majorIndustry : String
  issuer : Option String
  cardNumber : List Char
  personalDigits : List Char
  checkDigit : Char
deriving DecidableEq

/-- `CreateCard.get`: detect the issuer from the prefix, pick the digit count,
    run `_generate` (entropy = the digit characters of `raw`, popped from the
    end), then `__bool__`, then build the response.  The second `repr` in the
    source regenerates on an already-full card, a no-op, so the response's card
    number equals the generated one. -/
def createCardGet (mi raw : List Char) : Except PyErr GenerateResponse :=
  let issuer := getIssuer mi
  match genLoop (digitCountFor issuer) mi ((raw.filter Char.isDigit).reverse) with
  | Except.error e => Except.error e
  | Except.ok card =>
    match checksum card with
    | Except.error e => Except.error e
    | Except.ok cs =>
      match card.getLast? with
      | none => Except.error PyErr.indexError
      | some lastc =>
        match card.head? with
        | none => Except.error PyErr.indexError
        | some c0 =>
          match lookupMajor c0 with
          | none => Except.error PyErr.keyError
          | some mj =>
            Except.ok ⟨lastc == cs, mj, issuer, card, (card.drop 7).dropLast, cs⟩

/-- The specification's description of classification: grow a prefix of the
    input one character at a time from the front and return the first table
    match.  Used to compare `getIssuer` against the spec's words. -/
def specClassify (card : List Char) : Option String :=
  (List.range card.length).findSome? (fun i => findIssuerAt (card.take (i + 1)))

/-! ## Digit and character basics -/

lemma ckd_lt (s : List Char) : ckd s < 10 := Nat.mod_lt _ (by norm_num)

lemma digitChar_isDigit : ∀ k, k < 10 → (Nat.digitChar k).isDigit = true := by decide

lemma digitChar_beq_iff : ∀ j, j < 10 → ∀ k, k < 10 →
    ((Nat.digitChar j == Nat.digitChar k) = true ↔ j = k) := by decide

lemma digitChar_inj : ∀ j, j < 10 → ∀ k, k < 10 →
    Nat.digitChar j = Nat.digitChar k → j = k := by decide

lemma char_isDigit_cases (c : Char) (h : c.isDigit = true) :
    c = '0' ∨ c = '1' ∨ c = '2' ∨ c = '3' ∨ c = '4' ∨
    c = '5' ∨ c = '6' ∨ c = '7' ∨ c = '8' ∨ c = '9' := by
  simp [Char.isDigit] at h
  obtain ⟨h1, h2⟩ := h
  have h1a : 48 ≤ c.val.toNat := h1
  have h2a : c.val.toNat ≤ 57 := h2
  set n := c.val.toNat with hn
  interval_cases n <;>
    [ exact Or.inl (Char.ext (UInt32.ext hn.symm));
      exact Or.inr (Or.inl (Char.ext (UInt32.ext hn.symm)));
      exact Or.inr (Or.inr (Or.inl (Char.ext (UInt32.ext hn.symm))));
      exact Or.inr (Or.inr (Or.inr (Or.inl (Char.ext (UInt32.ext hn.symm)))));
      exact Or.inr (Or.inr (Or.inr (Or.inr (Or.inl (Char.ext (UInt32.ext hn.symm))))));
      exact Or.inr (Or.inr (Or.inr (Or.inr (Or.inr (Or.inl (Char.ext (UInt32.ext hn.symm)))))));
      exact Or.inr (Or.inr (Or.inr (Or.inr (Or.inr (Or.inr (Or.inl
        (Char.ext (UInt32.ext hn.symm))))))));
      exact Or.inr (Or.inr (Or.inr (Or.inr (Or.inr (Or.inr (Or.inr (Or.inl
        (Char.ext (UInt32.ext hn.symm)))))))));
      exact Or.inr (Or.inr (Or.inr (Or.inr (Or.inr (Or.inr (Or.inr (Or.inr (Or.inl
        (Char.ext (UInt32.ext hn.symm))))))))));
      exact Or.inr (Or.inr (Or.inr (Or.inr (Or.inr (Or.inr (Or.inr (Or.inr (Or.inr
        (Char.ext (UInt32.ext hn.symm))))))))))]

/-! ## intList -/

lemma intList_ok : ∀ l : List Char, l.all Char.isDigit = true →
    intList l = Except.ok (l.map pyDigitVal) := by
  intro l hl
  induction l with
  | nil => rfl
  | cons c cs ih =>
    rw [List.all_cons, Bool.and_eq_true] at hl
    simp [intList, pyInt, hl.1, ih hl.2, pyDigitVal]

lemma intList_err : ∀ l : List Char, (∃ c ∈ l, c.isDigit = false) →
    intList l = Except.error PyErr.valueError := by
  intro l hex
  induction l with
  | nil => obtain ⟨c, hc, _⟩ := hex; cases hc
  | cons c cs ih =>
    obtain ⟨x, hx, hxd⟩ := hex
    rcases List.mem_cons.mp hx with rfl | hx2
    · simp [intList, pyInt, hxd]
    · by_cases hc : c.isDigit = true
      · simp [intList, pyInt, hc, ih ⟨x, hx2, hxd⟩]
      · simp only [Bool.not_eq_true] at hc
        simp [intList, pyInt, hc]

/-! ## strNat -/

lemma strNatAux_zero : ∀ fuel, strNatAux fuel 0 = [] := by
  intro fuel; cases fuel <;> simp [strNatAux]

lemma strNatAux_eq_digits : ∀ fuel n, n ≠ 0 → n ≤ fuel →
    strNatAux fuel n = (Nat.digits 10 n).reverse.map Nat.digitChar := by
  intro fuel
  induction fuel with
  | zero => intro n h1 h2; omega
  | succ fuel ih =>
    intro n h1 h2
    simp only [strNatAux, if_neg h1]
    rw [Nat.digits_def' (by norm_num : (1:ℕ) < 10) (Nat.pos_of_ne_zero h1)]
    rw [List.reverse_cons, List.map_append]
    by_cases h10 : n / 10 = 0
    · rw [h10, strNatAux_zero]
      simp
    · rw [ih (n / 10) h10 (by omega)]
      simp

lemma strNat_eq_digits (n : Nat) (h : n ≠ 0) :
    strNat n = (Nat.digits 10 n).reverse.map Nat.digitChar := by
  rw [strNat, if_neg h]; exact strNatAux_eq_digits n n h le_rfl

lemma strNat_length (n k : Nat) (h1 : 10 ^ k ≤ n) (h2 : n < 10 ^ (k + 1)) :
    (strNat n).length = k + 1 := by
  have hp : 1 ≤ 10 ^ k := Nat.one_le_pow k 10 (by norm_num)
  have hn : n ≠ 0 := by omega
  rw [strNat_eq_digits n hn, List.length_map, List.length_reverse,
      Nat.digits_len 10 n (by norm_num) hn, Nat.log_eq_of_pow_le_of_lt_pow h1 h2]

lemma strNat_getLastD (n : Nat) : (strNat n).getLastD '0' = Nat.digitChar (n % 10) := by
  by_cases h : n = 0
  · subst h; rfl
  · rw [strNat, if_neg h]
    obtain ⟨m, rfl⟩ := Nat.exists_eq_succ_of_ne_zero h
    simp only [strNatAux, if_neg h]
    simp [List.getLastD_concat]

lemma strNat_small (j : Nat) (h : j < 10) : strNat j = [Nat.digitChar j] := by
  interval_cases j <;> rfl

lemma digits_expand (n : Nat) (h : n ≠ 0) :
    Nat.digits 10 n = n % 10 :: Nat.digits 10 (n / 10) :=
  Nat.digits_def' (by norm_num) (Nat.pos_of_ne_zero h)

lemma digits_of_4 (n : Nat) (h1 : 1000 ≤ n) (h2 : n < 10000) :
    Nat.digits 10 n = [n % 10, n / 10 % 10, n / 100 % 10, n / 1000 % 10] := by
  have e1 : n / 10 / 10 = n / 100 := by omega
  have e2 : n / 100 / 10 = n / 1000 := by omega
  have e3 : n / 1000 / 10 = 0 := by omega
  rw [digits_expand n (by omega), digits_expand (n / 10) (by omega), e1,
      digits_expand (n / 100) (by omega), e2,
      digits_expand (n / 1000) (by omega), e3]
  simp

lemma digits_of_6 (n : Nat) (h1 : 100000 ≤ n) (h2 : n < 1000000) :
    Nat.digits 10 n = [n % 10, n / 10 % 10, n / 100 % 10,
                       n / 1000 % 10, n / 10000 % 10, n / 100000 % 10] := by
  have e1 : n / 10 / 10 = n / 100 := by omega
  have e2 : n / 100 / 10 = n / 1000 := by omega
  have e3 : n / 1000 / 10 = n / 10000 := by omega
  have e4 : n / 10000 / 10 = n / 100000 := by omega
  have e5 : n / 100000 / 10 = 0 := by omega
  rw [digits_expand n (by omega), digits_expand (n / 10) (by omega), e1,
      digits_expand (n / 100) (by omega), e2,
      digits_expand (n / 1000) (by omega), e3,
      digits_expand (n / 10000) (by omega), e4,
      digits_expand (n / 100000) (by omega), e5]
  simp

lemma strNat_4 (n : Nat) (h1 : 1000 ≤ n) (h2 : n < 10000) :
    strNat n = [Nat.digitChar (n / 1000 % 10), Nat.digitChar (n / 100 % 10),
                Nat.digitChar (n / 10 % 10), Nat.digitChar (n % 10)] := by
  rw [strNat_eq_digits n (by omega), digits_of_4 n h1 h2]
  rfl

lemma strNat_6 (n : Nat) (h1 : 100000 ≤ n) (h2 : n < 1000000) :
    strNat n = [Nat.digitChar (n / 100000 % 10), Nat.digitChar (n / 10000 % 10),
                Nat.digitChar (n / 1000 % 10), Nat.digitChar (n / 100 % 10),
                Nat.digitChar (n / 10 % 10), Nat.digitChar (n % 10)] := by
  rw [strNat_eq_digits n (by omega), digits_of_6 n h1 h2]
  rfl

lemma strNat_622 (n : Nat) (h1 : 622000 ≤ n) (h2 : n ≤ 622999) :
    strNat n = ['6', '2', '2', Nat.digitChar (n / 100 % 10),
                Nat.digitChar (n / 10 % 10), Nat.digitChar (n % 10)] := by
  have e1 : n / 100000 % 10 = 6 := by omega
  have e2 : n / 10000 % 10 = 2 := by omega
  have e3 : n / 1000 % 10 = 2 := by omega
  rw [strNat_6 n (by omega) (by omega), e1, e2, e3]
  rfl

/-! ## Checksum and check-digit facts -/

lemma checksum_concat (s : List Char) (c : Char) (hs : s.all Char.isDigit = true) :
    checksum (s ++ [c]) = Except.ok (Nat.digitChar (ckd s)) := by
  have hrev : s.reverse.all Char.isDigit = true := by rwa [List.all_reverse]
  simp only [checksum, List.dropLast_concat, intList_ok s.reverse hrev]
  rw [strNat_getLastD]
  rfl

lemma boolCheck_concat (s : List Char) (c : Char) (hs : s.all Char.isDigit = true) :
    boolCheck (s ++ [c]) = Except.ok (c == Nat.digitChar (ckd s)) := by
  simp only [boolCheck, checksum_concat s c hs, List.getLast?_concat]

lemma boolCheck_self (s : List Char) (hs : s.all Char.isDigit = true) :
    boolCheck (s ++ [Nat.digitChar (ckd s)]) = Except.ok true := by
  rw [boolCheck_concat s _ hs, beq_self_eq_true]

lemma boolCheck_ok_parts (card : List Char) (h : boolCheck card = Except.ok true) :
    ∃ cs lastc, checksum card = Except.ok cs ∧ card.getLast? = some lastc ∧
      (lastc == cs) = true := by
  rcases hcs : checksum card with e | cs
  · rw [boolCheck, hcs] at h; cases h
  · rcases hl : card.getLast? with _ | lastc
    · rw [boolCheck, hcs, hl] at h; cases h
    · rw [boolCheck, hcs, hl] at h
      exact ⟨cs, lastc, rfl, rfl, Except.ok.inj h⟩

/-! ## The trial-check-digit loop -/

lemma tryDigits_found (s : List Char) (hs : s.all Char.isDigit = true) :
    ∀ js : List Nat, ckd s ∈ js → (∀ j ∈ js, j < 10) →
    tryDigits s js = Except.ok (s ++ [Nat.digitChar (ckd s)]) := by
  intro js
  induction js with
  | nil => intro h _; cases h
  | cons j rest ih =>
    intro hmem hlt
    have hj : j < 10 := hlt j (List.mem_cons_self j rest)
    simp only [tryDigits, strNat_small j hj, boolCheck_concat s (Nat.digitChar j) hs]
    by_cases hje : j = ckd s
    · subst hje
      rw [beq_self_eq_true]
    · have hne : (Nat.digitChar j == Nat.digitChar (ckd s)) = false := by
        rw [beq_eq_false_iff_ne]
        intro he
        exact hje (digitChar_inj j hj (ckd s) (ckd_lt s) he)
      rw [hne]
      simp only [List.dropLast_concat]
      exact ih ((List.mem_cons.mp hmem).resolve_left (fun h => hje h.symm))
        (fun x hx => hlt x (List.mem_cons_of_mem j hx))

/-! ## The generation loop -/

lemma genLoop_done (dc : Nat) (card rev : List Char) (h : ¬ card.length < dc) :
    genLoop dc card rev = Except.ok card := by
  cases rev <;> simp [genLoop, h]

lemma genLoop_step (dc : Nat) (card rev : List Char) (d : Char)
    (hall : card.all Char.isDigit = true) (hd : d.isDigit = true) (hlt : card.length < dc) :
    genLoop dc card (d :: rev)
      = genLoop dc ((card ++ [d]) ++ [Nat.digitChar (ckd (card ++ [d]))]) rev := by
  have hall2 : (card ++ [d]).all Char.isDigit = true := by
    rw [List.all_append]; simp [hall, hd]
  simp only [genLoop, if_pos hlt,
    tryDigits_found (card ++ [d]) hall2 (List.range 10)
      (List.mem_range.mpr (ckd_lt _)) (fun j hj => List.mem_range.mp hj)]

lemma genLoop_spec (dc : Nat) :
    ∀ rev card : List Char, card.all Char.isDigit = true → rev.all Char.isDigit = true →
    card.length < dc → dc ≤ card.length + 2 * rev.length →
    ∃ final : List Char,
      genLoop dc card rev = Except.ok final ∧
      final.all Char.isDigit = true ∧
      boolCheck final = Except.ok true ∧
      final.length = (if (dc - card.length) % 2 = 0 then dc else dc + 1) ∧
      card <+: final := by
  intro rev
  induction rev with
  | nil =>
    intro card _ _ h1 h2
    simp only [List.length_nil] at h2
    omega
  | cons d rest ih =>
    intro card hall hrev hlt hle
    rw [List.all_cons, Bool.and_eq_true] at hrev
    have hall1 : (card ++ [d]).all Char.isDigit = true := by
      rw [List.all_append]; simp [hall, hrev.1]
    have hall2 : ((card ++ [d]) ++ [Nat.digitChar (ckd (card ++ [d]))]).all Char.isDigit
        = true := by
      rw [List.all_append]
      simp [hall1, digitChar_isDigit _ (ckd_lt (card ++ [d]))]
    have hlen2 : ((card ++ [d]) ++ [Nat.digitChar (ckd (card ++ [d]))]).length
        = card.length + 2 := by simp
    have hpre : card <+: ((card ++ [d]) ++ [Nat.digitChar (ckd (card ++ [d]))]) :=
      ⟨[d] ++ [Nat.digitChar (ckd (card ++ [d]))], by simp⟩
    rw [genLoop_step dc card rest d hall hrev.1 hlt]
    by_cases hlt2 : ((card ++ [d]) ++ [Nat.digitChar (ckd (card ++ [d]))]).length < dc
    · obtain ⟨final, hgen, hfa, hfv, hfl, hfp⟩ :=
        ih ((card ++ [d]) ++ [Nat.digitChar (ckd (card ++ [d]))]) hall2 hrev.2 hlt2
          (by simp only [List.length_cons] at hle; omega)
      refine ⟨final, hgen, hfa, hfv, ?_, hpre.trans hfp⟩
      rw [hfl, hlen2] at *
      rw [hlen2] at hlt2
      split_ifs with p1 p2 p2 <;> omega
    · rw [genLoop_done dc _ rest hlt2]
      refine ⟨_, rfl, hall2, boolCheck_self (card ++ [d]) hall1, ?_, hpre⟩
      rw [hlen2] at hlt2 ⊢
      split_ifs with p1 <;> omega

/-! ## Response-construction evaluation lemmas -/

lemma validateCard_eval (card : List Char) (cs lastc c0 : Char) (mj : String)
    (h1 : checksum card = Except.ok cs) (h2 : card.getLast? = some lastc)
    (h3 : card.head? = some c0) (h4 : lookupMajor c0 = some mj) :
    validateCard card
      = Except.ok ⟨lastc == cs, mj, getIssuer card, (card.drop 7).dropLast, cs⟩ := by
  simp only [validateCard, h1, h2, h3, h4]

lemma createCardGet_eval (mi raw card : List Char) (cs lastc c0 : Char) (mj : String)
    (hg : genLoop (digitCountFor (getIssuer mi)) mi ((raw.filter Char.isDigit).reverse)
            = Except.ok card)
    (h1 : checksum card = Except.ok cs) (h2 : card.getLast? = some lastc)
    (h3 : card.head? = some c0) (h4 : lookupMajor c0 = some mj) :
    createCardGet mi raw
      = Except.ok ⟨lastc == cs, mj, getIssuer mi, card, (card.drop 7).dropLast, cs⟩ := by
  simp only [createCardGet, hg, h1, h2, h3, h4]

lemma lookupMajor_of_digit (c : Char) (hd : c.isDigit = true) (h0 : c ≠ '0') :
    ∃ s, lookupMajor c = some s := by
  rcases char_isDigit_cases c hd with rfl|rfl|rfl|rfl|rfl|rfl|rfl|rfl|rfl|rfl
  · exact absurd rfl h0
  all_goals exact ⟨_, rfl⟩

lemma digitCountFor_bounds (issuer : Option String) :
    14 ≤ digitCountFor issuer ∧ digitCountFor issuer ≤ 16 := by
  rw [digitCountFor]
  split_ifs <;> omega

lemma filter_isDigit_all (l : List Char) :
    (l.filter Char.isDigit).all Char.isDigit = true := by
  rw [List.all_eq_true]
  intro x hx
  exact (List.mem_filter.mp hx).2

/-! ## Issuer-table membership facts -/

lemma strNat_len6_of_range (m : Nat) (h1 : 100000 ≤ m) (h2 : m < 1000000) :
    (strNat m).length = 6 :=
  strNat_length m 5 (le_trans (by norm_num) h1) (lt_of_lt_of_le h2 (by norm_num))

lemma strNat_len4_of_range (m : Nat) (h1 : 1000 ≤ m) (h2 : m < 10000) :
    (strNat m).length = 4 :=
  strNat_length m 3 (le_trans (by norm_num) h1) (lt_of_lt_of_le h2 (by norm_num))

lemma mem_discover_elim (q : List Char) (h : q ∈ discoverRanges) :
    q = "6011".toList ∨ q = "64".toList ∨ q = "65".toList ∨
    (∃ m, 622126 ≤ m ∧ m < 622925 ∧ strNat m = q) ∨
    (∃ m, 624000 ≤ m ∧ m < 626999 ∧ strNat m = q) ∨
    (∃ m, 628200 ≤ m ∧ m < 628899 ∧ strNat m = q) := by
  simp only [discoverRanges, List.mem_append, List.mem_cons, List.mem_map,
    List.mem_range'_1, List.not_mem_nil, or_false] at h
  rcases h with (((h | h | h) | ⟨m, hm, he⟩) | ⟨m, hm, he⟩) | ⟨m, hm, he⟩
  · exact Or.inl h
  · exact Or.inr (Or.inl h)
  · exact Or.inr (Or.inr (Or.inl h))
  · exact Or.inr (Or.inr (Or.inr (Or.inl ⟨m, hm.1, by omega, he⟩)))
  · exact Or.inr (Or.inr (Or.inr (Or.inr (Or.inl ⟨m, hm.1, by omega, he⟩))))
  · exact Or.inr (Or.inr (Or.inr (Or.inr (Or.inr ⟨m, hm.1, by omega, he⟩))))

lemma mem_mastercard_elim (q : List Char) (h : q ∈ mastercardRanges) :
    (∃ m, 2221 ≤ m ∧ m < 2720 ∧ strNat m = q) ∨
    q = "51".toList ∨ q = "52".toList ∨ q = "53".toList ∨ q = "55".toList := by
  simp only [mastercardRanges, List.mem_append, List.mem_cons, List.mem_map,
    List.mem_range'_1, List.not_mem_nil, or_false] at h
  rcases h with ⟨m, hm, he⟩ | h
  · exact Or.inl ⟨m, hm.1, by omega, he⟩
  · exact Or.inr h

lemma mem_discover_range1 (n : Nat) (h1 : 622126 ≤ n) (h2 : n < 622925) :
    strNat n ∈ discoverRanges := by
  unfold discoverRanges
  exact List.mem_append_left _ (List.mem_append_left _ (List.mem_append_right _
    (List.mem_map_of_mem _ (List.mem_range'_1.mpr ⟨h1, by omega⟩))))

lemma length_of_mem_discover (q : List Char) (h : q ∈ discoverRanges) :
    q.length = 4 ∨ q.length = 2 ∨ q.length = 6 := by
  rcases mem_discover_elim q h with h|h|h|⟨m,h1,h2,he⟩|⟨m,h1,h2,he⟩|⟨m,h1,h2,he⟩
  · rw [h]; exact Or.inl (by decide)
  · rw [h]; exact Or.inr (Or.inl (by decide))
  · rw [h]; exact Or.inr (Or.inl (by decide))
  all_goals exact Or.inr (Or.inr (he ▸ strNat_len6_of_range m (by omega) (by omega)))

lemma length_of_mem_mastercard (q : List Char) (h : q ∈ mastercardRanges) :
    q.length = 4 ∨ q.length = 2 := by
  rcases mem_mastercard_elim q h with ⟨m,h1,h2,he⟩|h|h|h|h
  · exact Or.inl (he ▸ strNat_len4_of_range m (by omega) (by omega))
  all_goals exact Or.inr (by rw [h]; decide)

lemma not_mem_discover_of_length (q : List Char) (n : Nat) (hq : q.length = n)
    (h2 : n ≠ 2) (h4 : n ≠ 4) (h6 : n ≠ 6) : q ∉ discoverRanges := fun h => by
  rcases length_of_mem_discover q h with hh|hh|hh
  · exact h4 (hq.symm.trans hh)
  · exact h2 (hq.symm.trans hh)
  · exact h6 (hq.symm.trans hh)

lemma not_mem_mastercard_of_length (q : List Char) (n : Nat) (hq : q.length = n)
    (h2 : n ≠ 2) (h4 : n ≠ 4) : q ∉ mastercardRanges := fun h => by
  rcases length_of_mem_mastercard q h with hh|hh
  · exact h4 (hq.symm.trans hh)
  · exact h2 (hq.symm.trans hh)

lemma not_mem_discover_concrete2 (q : List Char) (hq : q.length = 2)
    (h64 : q ≠ "64".toList) (h65 : q ≠ "65".toList) : q ∉ discoverRanges := fun h => by
  rcases mem_discover_elim q h with h|h|h|⟨m,h1,h2,he⟩|⟨m,h1,h2,he⟩|⟨m,h1,h2,he⟩
  · rw [h] at hq; exact absurd hq (by decide)
  · exact h64 h
  · exact h65 h
  all_goals {
    have hl := congrArg List.length he
    rw [strNat_len6_of_range m (by omega) (by omega), hq] at hl
    exact absurd hl (by norm_num) }

lemma not_mem_mastercard_concrete2 (q : List Char) (hq : q.length = 2)
    (h51 : q ≠ "51".toList) (h52 : q ≠ "52".toList) (h53 : q ≠ "53".toList)
    (h55 : q ≠ "55".toList) : q ∉ mastercardRanges := fun h => by
  rcases mem_mastercard_elim q h with ⟨m,h1,h2,he⟩|h|h|h|h
  · have hl := congrArg List.length he
    rw [strNat_len4_of_range m (by omega) (by omega), hq] at hl
    exact absurd hl (by norm_num)
  · exact h51 h
  · exact h52 h
  · exact h53 h
  · exact h55 h

lemma notmem_of_all_length_ne (q : List Char) (L : List (List Char)) (n : Nat)
    (hq : q.length = n) (h : ∀ r ∈ L, r.length ≠ n) : q ∉ L := fun hm => h q hm hq

/-! ## findIssuerAt facts -/

lemma findIssuerAt_eq_none (p : List Char)
    (h1 : p ∉ dinersRanges) (h2 : p ∉ amexRanges) (h3 : p ∉ jcbRanges)
    (h4 : p ∉ aaaRanges) (h5 : p ∉ discoverRanges) (h6 : p ∉ mastercardRanges)
    (h7 : p ∉ visaRanges) :
    findIssuerAt p = none := by
  unfold findIssuerAt issuer_map
  rw [List.find?_cons_of_neg _ (by simpa using h1),
      List.find?_cons_of_neg _ (by simpa using h2),
      List.find?_cons_of_neg _ (by simpa using h3),
      List.find?_cons_of_neg _ (by simpa using h4),
      List.find?_cons_of_neg _ (by simpa using h5),
      List.find?_cons_of_neg _ (by simpa using h6),
      List.find?_cons_of_neg _ (by simpa using h7)]
  rfl

lemma findIssuerAt_diners (p : List Char) (h : p ∈ dinersRanges) :
    findIssuerAt p = some "Diners Club" := by
  unfold findIssuerAt issuer_map
  rw [List.find?_cons_of_pos _ (by simpa using h)]
  rfl

lemma findIssuerAt_discover (p : List Char)
    (h1 : p ∉ dinersRanges) (h2 : p ∉ amexRanges) (h3 : p ∉ jcbRanges)
    (h4 : p ∉ aaaRanges) (h5 : p ∈ discoverRanges) :
    findIssuerAt p = some "Discover" := by
  unfold findIssuerAt issuer_map
  rw [List.find?_cons_of_neg _ (by simpa using h1),
      List.find?_cons_of_neg _ (by simpa using h2),
      List.find?_cons_of_neg _ (by simpa using h3),
      List.find?_cons_of_neg _ (by simpa using h4),
      List.find?_cons_of_pos _ (by simpa using h5)]
  rfl

lemma findIssuerAt_visa (p : List Char)
    (h1 : p ∉ dinersRanges) (h2 : p ∉ amexRanges) (h3 : p ∉ jcbRanges)
    (h4 : p ∉ aaaRanges) (h5 : p ∉ discoverRanges) (h6 : p ∉ mastercardRanges)
    (h7 : p ∈ visaRanges) :
    findIssuerAt p = some "Visa" := by
  unfold findIssuerAt issuer_map
  rw [List.find?_cons_of_neg _ (by simpa using h1),
      List.find?_cons_of_neg _ (by simpa using h2),
      List.find?_cons_of_neg _ (by simpa using h3),
      List.find?_cons_of_neg _ (by simpa using h4),
      List.find?_cons_of_neg _ (by simpa using h5),
      List.find?_cons_of_neg _ (by simpa using h6),
      List.find?_cons_of_pos _ (by simpa using h7)]
  rfl

lemma fIA_3 : findIssuerAt ['3'] = none :=
  findIssuerAt_eq_none _ (by decide) (by decide) (by decide) (by decide)
    (not_mem_discover_of_length _ 1 (by decide) (by decide) (by decide) (by decide))
    (not_mem_mastercard_of_length _ 1 (by decide) (by decide) (by decide))
    (by decide)

lemma fIA_5 : findIssuerAt ['5'] = none :=
  findIssuerAt_eq_none _ (by decide) (by decide) (by decide) (by decide)
    (not_mem_discover_of_length _ 1 (by decide) (by decide) (by decide) (by decide))
    (not_mem_mastercard_of_length _ 1 (by decide) (by decide) (by decide))
    (by decide)

lemma fIA_6 : findIssuerAt ['6'] = none :=
  findIssuerAt_eq_none _ (by decide) (by decide) (by decide) (by decide)
    (not_mem_discover_of_length _ 1 (by decide) (by decide) (by decide) (by decide))
    (not_mem_mastercard_of_length _ 1 (by decide) (by decide) (by decide))
    (by decide)

lemma fIA_4 : findIssuerAt ['4'] = some "Visa" :=
  findIssuerAt_visa _ (by decide) (by decide) (by decide) (by decide)
    (not_mem_discover_of_length _ 1 (by decide) (by decide) (by decide) (by decide))
    (not_mem_mastercard_of_length _ 1 (by decide) (by decide) (by decide))
    (by decide)

lemma fIA_30 : findIssuerAt ['3', '0'] = some "Diners Club" :=
  findIssuerAt_diners _ (by decide)

lemma fIA_60 : findIssuerAt ['6', '0'] = none :=
  findIssuerAt_eq_none _ (by decide) (by decide) (by decide) (by decide)
    (not_mem_discover_concrete2 _ (by decide) (by decide) (by decide))
    (not_mem_mastercard_concrete2 _ (by decide) (by decide) (by decide) (by decide) (by decide))
    (by decide)

lemma fIA_62 : findIssuerAt ['6', '2'] = none :=
  findIssuerAt_eq_none _ (by decide) (by decide) (by decide) (by decide)
    (not_mem_discover_concrete2 _ (by decide) (by decide) (by decide))
    (not_mem_mastercard_concrete2 _ (by decide) (by decide) (by decide) (by decide) (by decide))
    (by decide)

lemma fIA_601 : findIssuerAt ['6', '0', '1'] = none :=
  findIssuerAt_eq_none _ (by decide) (by decide) (by decide) (by decide)
    (not_mem_discover_of_length _ 3 (by decide) (by decide) (by decide) (by decide))
    (not_mem_mastercard_of_length _ 3 (by decide) (by decide) (by decide))
    (by decide)

lemma fIA_622 : findIssuerAt ['6', '2', '2'] = none :=
  findIssuerAt_eq_none _ (by decide) (by decide) (by decide) (by decide)
    (not_mem_discover_of_length _ 3 (by decide) (by decide) (by decide) (by decide))
    (not_mem_mastercard_of_length _ 3 (by decide) (by decide) (by decide))
    (by decide)

lemma fIA_6011 : findIssuerAt ['6', '0', '1', '1'] = some "Discover" := by
  refine findIssuerAt_discover _ (by decide) (by decide) (by decide) (by decide) ?_
  unfold discoverRanges
  exact List.mem_append_left _ (List.mem_append_left _ (List.mem_append_left _ (by decide)))

lemma fIA_len5 (p : List Char) (hp : p.length = 5) : findIssuerAt p = none :=
  findIssuerAt_eq_none p
    (notmem_of_all_length_ne _ _ 5 hp (by decide))
    (notmem_of_all_length_ne _ _ 5 hp (by decide))
    (notmem_of_all_length_ne _ _ 5 hp (by decide))
    (notmem_of_all_length_ne _ _ 5 hp (by decide))
    (not_mem_discover_of_length _ 5 hp (by decide) (by decide) (by decide))
    (not_mem_mastercard_of_length _ 5 hp (by decide) (by decide))
    (notmem_of_all_length_ne _ _ 5 hp (by decide))

lemma fIA_ab5 (a b : Nat) :
    findIssuerAt ['6', '2', '2', Nat.digitChar a, Nat.digitChar b] = none :=
  fIA_len5 _ (by simp)

lemma not_mem_discover_622x (x : Nat) :
    ['6', '2', '2', Nat.digitChar x] ∉ discoverRanges := fun h => by
  rcases mem_discover_elim _ h with h|h|h|⟨m,h1,h2,he⟩|⟨m,h1,h2,he⟩|⟨m,h1,h2,he⟩
  · exact absurd (List.cons.inj (List.cons.inj h).2).1 (by decide)
  · exact absurd (List.cons.inj (List.cons.inj h).2).1 (by decide)
  · exact absurd (List.cons.inj (List.cons.inj h).2).1 (by decide)
  all_goals {
    have hl := congrArg List.length he
    rw [strNat_len6_of_range m (by omega) (by omega)] at hl
    simp at hl }

lemma not_mem_mastercard_622x (x : Nat) :
    ['6', '2', '2', Nat.digitChar x] ∉ mastercardRanges := fun h => by
  rcases mem_mastercard_elim _ h with ⟨m,h1,h2,he⟩|h|h|h|h
  · rw [strNat_4 m (by omega) (by omega)] at he
    have hhd := (List.cons.inj he).1
    have : m / 1000 % 10 = 6 := digitChar_inj _ (Nat.mod_lt _ (by norm_num)) 6
      (by norm_num) (hhd.trans rfl)
    omega
  all_goals exact absurd (List.cons.inj h).1 (by decide)

lemma fIA_622x (x : Nat) : findIssuerAt ['6', '2', '2', Nat.digitChar x] = none :=
  findIssuerAt_eq_none _
    (notmem_of_all_length_ne _ dinersRanges 4 rfl (by decide))
    (notmem_of_all_length_ne _ amexRanges 4 rfl (by decide))
    (notmem_of_all_length_ne _ jcbRanges 4 rfl (by decide))
    (notmem_of_all_length_ne _ aaaRanges 4 rfl (by decide))
    (not_mem_discover_622x x)
    (not_mem_mastercard_622x x)
    (notmem_of_all_length_ne _ visaRanges 4 rfl (by decide))

lemma fIA_622full (n : Nat) (h1 : 622126 ≤ n) (h2 : n ≤ 622924) :
    findIssuerAt ['6', '2', '2', Nat.digitChar (n / 100 % 10),
                  Nat.digitChar (n / 10 % 10), Nat.digitChar (n % 10)] = some "Discover" := by
  have hs := strNat_622 n (by omega) (by omega)
  refine findIssuerAt_discover _
    (notmem_of_all_length_ne _ dinersRanges 6 rfl (by decide))
    (notmem_of_all_length_ne _ amexRanges 6 rfl (by decide))
    (notmem_of_all_length_ne _ jcbRanges 6 rfl (by decide))
    (notmem_of_all_length_ne _ aaaRanges 6 rfl (by decide)) ?_
  rw [← hs]
  exact mem_discover_range1 n h1 (by omega)

lemma fIA_622925 : findIssuerAt ['6', '2', '2', '9', '2', '5'] = none := by
  refine findIssuerAt_eq_none _ (by decide) (by decide) (by decide) (by decide) ?_ ?_ (by decide)
  · intro h
    rcases mem_discover_elim _ h with h|h|h|⟨m,h1,h2,he⟩|⟨m,h1,h2,he⟩|⟨m,h1,h2,he⟩
    · exact absurd h (by decide)
    · exact absurd h (by decide)
    · exact absurd h (by decide)
    · rw [strNat_622 m (by omega) (by omega)] at he
      have e4 := (List.cons.inj (List.cons.inj (List.cons.inj (List.cons.inj he).2).2).2).1
      have e5 := (List.cons.inj (List.cons.inj (List.cons.inj (List.cons.inj
        (List.cons.inj he).2).2).2).2).1
      have e6 := (List.cons.inj (List.cons.inj (List.cons.inj (List.cons.inj (List.cons.inj
        (List.cons.inj he).2).2).2).2).2).1
      have v4 : m / 100 % 10 = 9 := digitChar_inj _ (Nat.mod_lt _ (by norm_num)) 9
        (by norm_num) (e4.trans rfl)
      have v5 : m / 10 % 10 = 2 := digitChar_inj _ (Nat.mod_lt _ (by norm_num)) 2
        (by norm_num) (e5.trans rfl)
      have v6 : m % 10 = 5 := digitChar_inj _ (Nat.mod_lt _ (by norm_num)) 5
        (by norm_num) (e6.trans rfl)
      omega
    · rw [strNat_6 m (by omega) (by omega)] at he
      have e3 := (List.cons.inj (List.cons.inj (List.cons.inj he).2).2).1
      have v3 : m / 1000 % 10 = 2 := digitChar_inj _ (Nat.mod_lt _ (by norm_num)) 2
        (by norm_num) (e3.trans rfl)
      omega
    · rw [strNat_6 m (by omega) (by omega)] at he
      have e3 := (List.cons.inj (List.cons.inj (List.cons.inj he).2).2).1
      have v3 : m / 1000 % 10 = 2 := digitChar_inj _ (Nat.mod_lt _ (by norm_num)) 2
        (by norm_num) (e3.trans rfl)
      omega
  · intro h
    rcases mem_mastercard_elim _ h with ⟨m,h1,h2,he⟩|h|h|h|h
    · have hl := congrArg List.length he
      rw [strNat_len4_of_range m (by omega) (by omega)] at hl
      exact absurd hl (by decide)
    all_goals exact absurd h (by decide)

/-! ## getIssuer facts -/

lemma getIssuerAux_cons (stack : List Char) (c : Char) (cs : List Char) :
    getIssuerAux stack (c :: cs) =
      match findIssuerAt (stack ++ [c]) with
      | some i => some i
      | none => getIssuerAux (stack ++ [c]) cs := rfl

lemma gIA_some (stack : List Char) (c : Char) (cs : List Char) (p : List Char) (i : String)
    (hp : stack ++ [c] = p) (h : findIssuerAt p = some i) :
    getIssuerAux stack (c :: cs) = some i := by
  rw [getIssuerAux_cons, hp, h]

lemma gIA_none (stack : List Char) (c : Char) (cs : List Char) (p : List Char)
    (hp : stack ++ [c] = p) (h : findIssuerAt p = none) :
    getIssuerAux stack (c :: cs) = getIssuerAux p cs := by
  rw [getIssuerAux_cons, hp, h]

lemma getIssuer_4 : getIssuer ['4'] = some "Visa" := by
  rw [getIssuer]
  exact gIA_some [] '4' [] ['4'] "Visa" rfl fIA_4

lemma getIssuer_5 : getIssuer ['5'] = none := by
  rw [getIssuer, gIA_none [] '5' [] ['5'] rfl fIA_5]
  rfl

lemma getIssuer_30 : getIssuer ['3', '0'] = some "Diners Club" := by
  rw [getIssuer, gIA_none [] '3' ['0'] ['3'] rfl fIA_3]
  exact gIA_some ['3'] '0' [] ['3', '0'] "Diners Club" rfl fIA_30

lemma getIssuer_601100 : getIssuer "601100".toList = some "Discover" := by
  show getIssuerAux [] ['6', '0', '1', '1', '0', '0'] = some "Discover"
  rw [gIA_none [] '6' _ ['6'] rfl fIA_6,
      gIA_none ['6'] '0' _ ['6', '0'] rfl fIA_60,
      gIA_none ['6', '0'] '1' _ ['6', '0', '1'] rfl fIA_601]
  exact gIA_some ['6', '0', '1'] '1' _ ['6', '0', '1', '1'] "Discover" rfl fIA_6011

lemma getIssuer_622 (n : Nat) (h1 : 622126 ≤ n) (h2 : n ≤ 622924) :
    getIssuer (strNat n) = some "Discover" := by
  rw [strNat_622 n (by omega) (by omega), getIssuer]
  rw [gIA_none [] '6' _ ['6'] rfl fIA_6,
      gIA_none ['6'] '2' _ ['6', '2'] rfl fIA_62,
      gIA_none ['6', '2'] '2' _ ['6', '2', '2'] rfl fIA_622,
      gIA_none ['6', '2', '2'] (Nat.digitChar (n / 100 % 10)) _
        ['6', '2', '2', Nat.digitChar (n / 100 % 10)] rfl (fIA_622x _),
      gIA_none ['6', '2', '2', Nat.digitChar (n / 100 % 10)] (Nat.digitChar (n / 10 % 10)) _
        ['6', '2', '2', Nat.digitChar (n / 100 % 10), Nat.digitChar (n / 10 % 10)] rfl
        (fIA_ab5 _ _)]
  exact gIA_some _ (Nat.digitChar (n % 10)) _
    ['6', '2', '2', Nat.digitChar (n / 100 % 10), Nat.digitChar (n / 10 % 10),
     Nat.digitChar (n % 10)] "Discover" rfl (fIA_622full n h1 h2)

lemma getIssuer_622925 : getIssuer "622925".toList = none := by
  show getIssuerAux [] ['6', '2', '2', '9', '2', '5'] = none
  rw [gIA_none [] '6' _ ['6'] rfl fIA_6,
      gIA_none ['6'] '2' _ ['6', '2'] rfl fIA_62,
      gIA_none ['6', '2'] '2' _ ['6', '2', '2'] rfl fIA_622,
      gIA_none ['6', '2', '2'] '9' _ ['6', '2', '2', '9'] rfl (fIA_622x 9),
      gIA_none ['6', '2', '2', '9'] '2' _ ['6', '2', '2', '9', '2'] rfl (fIA_ab5 9 2),
      gIA_none ['6', '2', '2', '9', '2'] '5' _ ['6', '2', '2', '9', '2', '5'] rfl fIA_622925]
  rfl

/-! ## Classification agrees with the specification's growing-prefix description -/

lemma getIssuerAux_eq_findSome : ∀ rest stack : List Char,
    getIssuerAux stack rest
      = (List.range rest.length).findSome?
          (fun i => findIssuerAt (stack ++ rest.take (i + 1))) := by
  intro rest
  induction rest with
  | nil => intro stack; rfl
  | cons c cs ih =>
    intro stack
    rw [getIssuerAux_cons, List.length_cons, List.range_succ_eq_map, List.findSome?_cons]
    rw [show stack ++ (c :: cs).take (0 + 1) = stack ++ [c] from by simp]
    cases h : findIssuerAt (stack ++ [c]) with
    | some i => rfl
    | none =>
      dsimp only
      rw [List.findSome?_map, ih (stack ++ [c])]
      congr 1
      funext i
      simp only [Function.comp, List.take_succ_cons]
      rw [List.append_assoc]
      rfl

/-! ## Claim theorems -/

/-- Claim C1 (code bug): the spec says `generate("4")` returns exactly 16 digits, but
    for every entropy supply with at least 8 digit characters the code returns a
    17-character card number (starting with '4', with `valid = true`): each loop
    iteration appends the random digit AND the retained check digit, so from the
    odd-length prefix "4" the length sequence 1, 3, ..., 15, 17 overshoots 16. -/
theorem C1_generate4_length17 (raw : List Char)
    (hraw : 8 ≤ (raw.filter Char.isDigit).length) :
    (createCardGet ['4'] raw).map
      (fun r => (r.cardNumber.length, r.cardNumber.head?, r.valid)) =
      Except.ok (17, some '4', true) := by
  have hra : ((raw.filter Char.isDigit).reverse).all Char.isDigit = true := by
    rw [List.all_reverse]; exact filter_isDigit_all raw
  have hrl : 8 ≤ ((raw.filter Char.isDigit).reverse).length := by
    rw [List.length_reverse]; exact hraw
  obtain ⟨final, hgen, hfa, hfv, hfl, hfp⟩ :=
    genLoop_spec 16 ((raw.filter Char.isDigit).reverse) ['4'] (by decide) hra
      (by norm_num) (by simp only [List.length_cons, List.length_nil]; omega)
  obtain ⟨cs, lastc, hcs, hlast, hbeq⟩ := boolCheck_ok_parts final hfv
  obtain ⟨t, ht⟩ := hfp
  have hhead : final.head? = some '4' := by rw [← ht]; rfl
  have hdc : digitCountFor (getIssuer ['4']) = 16 := by rw [getIssuer_4]; rfl
  have hresp := createCardGet_eval ['4'] raw final cs lastc '4' "Banking/Financial"
    (by rw [hdc]; exact hgen) hcs hlast hhead rfl
  rw [hresp, Except.map]
  have hl17 : final.length = 17 := by rw [hfl]; norm_num
  rw [hl17, hhead, hbeq]

/-- Witness for C1 at the concrete entropy string "0123456789". -/
theorem C1_generate4_length17_witness :
    (createCardGet ['4'] "0123456789".toList).map
      (fun r => (r.cardNumber.length, r.cardNumber.head?, r.valid)) =
      Except.ok (17, some '4', true) :=
  C1_generate4_length17 _ (by decide)

/-- Claim C2 counterexample: one iteration of the append-and-repair loop from a
    15-character card with a single entropy digit ends at 17 characters, not 16:
    the accepted check digit is retained, so an iteration adds two characters,
    refuting "each iteration increases the sequence length by exactly one digit". -/
theorem C2_counterexample :
    (genLoop 16 "411111111111111".toList ['0']).map List.length = Except.ok 17 := by
  decide

/-- Claim C2 (amended): after a trial check digit succeeds, it is retained (not
    dropped): each iteration of the append-and-repair loop moves from `card` to
    `(card ++ [random digit]) ++ [accepted check digit]`, increasing the length by
    exactly two digits. -/
theorem C2_amended (dc : Nat) (card rev : List Char) (d : Char)
    (hall : card.all Char.isDigit = true) (hd : d.isDigit = true)
    (hlt : card.length < dc) :
    genLoop dc card (d :: rev)
      = genLoop dc ((card ++ [d]) ++ [Nat.digitChar (ckd (card ++ [d]))]) rev ∧
    ((card ++ [d]) ++ [Nat.digitChar (ckd (card ++ [d]))]).length = card.length + 2 :=
  ⟨genLoop_step dc card rev d hall hd hlt, by simp⟩

/-- Witness for the amended C2 at a concrete state. -/
theorem C2_amended_witness :
    genLoop 16 ['4'] ['2']
      = genLoop 16 ((['4'] ++ ['2']) ++ [Nat.digitChar (ckd (['4'] ++ ['2']))]) [] ∧
    ((['4'] ++ ['2']) ++ [Nat.digitChar (ckd (['4'] ++ ['2']))]).length = 3 :=
  C2_amended 16 ['4'] [] '2' (by decide) (by decide) (by decide)

/-- Claim C3: round trip — for every prefix of 1 to 6 decimal digits whose first digit
    is nonzero, and any entropy supply with at least 8 digit characters, generation
    succeeds and validating the generated card number reports `valid = true`. -/
theorem C3_roundtrip (c0 : Char) (rest raw : List Char)
    (hall : (c0 :: rest).all Char.isDigit = true) (h0 : c0 ≠ '0')
    (hlen : rest.length ≤ 5) (hraw : 8 ≤ (raw.filter Char.isDigit).length) :
    ∃ r v, createCardGet (c0 :: rest) raw = Except.ok r ∧
      validateCard r.cardNumber = Except.ok v ∧ v.valid = true := by
  have hdcb := digitCountFor_bounds (getIssuer (c0 :: rest))
  have hra : ((raw.filter Char.isDigit).reverse).all Char.isDigit = true := by
    rw [List.all_reverse]; exact filter_isDigit_all raw
  have hrl : 8 ≤ ((raw.filter Char.isDigit).reverse).length := by
    rw [List.length_reverse]; exact hraw
  have hmil : (c0 :: rest).length ≤ 6 := by
    simp only [List.length_cons]; omega
  obtain ⟨final, hgen, hfa, hfv, hfl, hfp⟩ :=
    genLoop_spec (digitCountFor (getIssuer (c0 :: rest)))
      ((raw.filter Char.isDigit).reverse) (c0 :: rest) hall hra
      (by omega) (by simp only [List.length_cons]; omega)
  obtain ⟨cs, lastc, hcs, hlast, hbeq⟩ := boolCheck_ok_parts final hfv
  have hc0d : c0.isDigit = true := by
    rw [List.all_cons, Bool.and_eq_true] at hall; exact hall.1
  obtain ⟨mj, hmj⟩ := lookupMajor_of_digit c0 hc0d h0
  obtain ⟨t, ht⟩ := hfp
  have hhead : final.head? = some c0 := by rw [← ht]; rfl
  have hresp := createCardGet_eval (c0 :: rest) raw final cs lastc c0 mj
    hgen hcs hlast hhead hmj
  have hv := validateCard_eval final cs lastc c0 mj hcs hlast hhead hmj
  exact ⟨_, _, hresp, hv, hbeq⟩

/-- Witness for C3 with prefix "4" and entropy "0123456789". -/
theorem C3_roundtrip_witness :
    ∃ r v, createCardGet ('4' :: []) "0123456789".toList = Except.ok r ∧
      validateCard r.cardNumber = Except.ok v ∧ v.valid = true :=
  C3_roundtrip '4' [] _ (by decide) (by decide) (by decide) (by decide)

/-- Claim C4 counterexample: the one-character input "5" is shorter than 2 characters,
    yet `validate` does not fail with any error — it returns a normal response
    (comparing '5' to the check digit '0' of the empty prefix). -/
theorem C4_counterexample :
    validateCard ['5'] = Except.ok ⟨false, "Banking/Financial", none, [], '0'⟩ := by
  have h5 := validateCard_eval ['5'] '0' '5' '5' "Banking/Financial" (by decide) rfl rfl rfl
  rw [h5, getIssuer_5]
  rfl

/-- Claim C4 (amended): the code has no typed InvalidInputError.  Instead:
    a non-digit character anywhere before the last position makes `validate` raise
    `ValueError`; a 1-character digit input is not rejected at all (it yields a normal
    response with `valid = false` for '5'); and the empty input raises `IndexError`
    at `card_number[-1]`.  (The URL route separately restricts routed inputs to
    7–16 digits.) -/
theorem C4_amended :
    (∀ card : List Char, (∃ c ∈ card.dropLast, c.isDigit = false) →
      validateCard card = Except.error PyErr.valueError) ∧
    validateCard ['5'] = Except.ok ⟨false, "Banking/Financial", none, [], '0'⟩ ∧
    validateCard [] = Except.error PyErr.indexError := by
  refine ⟨?_, ?_, by decide⟩
  · rintro card ⟨c, hc, hcd⟩
    have hcs : checksum card = Except.error PyErr.valueError := by
      simp only [checksum,
        intList_err card.dropLast.reverse ⟨c, List.mem_reverse.mpr hc, hcd⟩]
    simp only [validateCard, hcs]
  · have h5 := validateCard_eval ['5'] '0' '5' '5' "Banking/Financial" (by decide) rfl rfl rfl
    rw [h5, getIssuer_5]
    rfl

/-- Witness for the amended C4: a non-digit before the last position raises ValueError. -/
theorem C4_amended_witness :
    validateCard ['4', 'x', '1'] = Except.error PyErr.valueError :=
  C4_amended.1 ['4', 'x', '1'] ⟨'x', by decide, by decide⟩

/-- Claim C5 counterexample: on the input "a1", which contains a non-digit character,
    `verify` does not return false — it raises `ValueError` (from `int('a')`). -/
theorem C5_counterexample :
    boolCheck ['a', '1'] = Except.error PyErr.valueError ∧
    boolCheck ['a', '1'] ≠ Except.ok false := by
  decide

/-- Claim C5 (amended): `verify` returns false (fails closed) when the only non-digit
    is the final character; when a non-digit occurs anywhere before the last position,
    `verify` instead raises `ValueError`. -/
theorem C5_amended :
    (∀ (t : List Char) (c : Char), t.all Char.isDigit = true → c.isDigit = false →
      boolCheck (t ++ [c]) = Except.ok false) ∧
    (∀ card : List Char, (∃ x ∈ card.dropLast, x.isDigit = false) →
      boolCheck card = Except.error PyErr.valueError) := by
  constructor
  · intro t c ht hc
    rw [boolCheck_concat t c ht]
    have hne : c ≠ Nat.digitChar (ckd t) := by
      intro he
      rw [he, digitChar_isDigit (ckd t) (ckd_lt t)] at hc
      cases hc
    exact congrArg Except.ok (beq_eq_false_iff_ne.mpr hne)
  · rintro card ⟨x, hx, hxd⟩
    have hcs : checksum card = Except.error PyErr.valueError := by
      simp only [checksum,
        intList_err card.dropLast.reverse ⟨x, List.mem_reverse.mpr hx, hxd⟩]
    simp only [boolCheck, hcs]

/-- Witness for the amended C5: a trailing non-digit alone yields `ok false`. -/
theorem C5_amended_witness : boolCheck (['4'] ++ ['x']) = Except.ok false :=
  C5_amended.1 ['4'] 'x' (by decide) (by decide)

/-- Claim C6: issuer classification grows a prefix of the input one character at a time
    from the front and returns the first issuer, in table declaration order
    {Diners Club, American Express, JCB, AAA, Discover, Mastercard, Visa}, whose range
    set contains the current prefix; and classify("601100") yields Discover. -/
theorem C6_classification :
    issuer_map.map Prod.fst =
      ["Diners Club", "American Express", "JCB", "AAA", "Discover", "Mastercard", "Visa"] ∧
    (∀ card : List Char, getIssuer card = specClassify card) ∧
    getIssuer "601100".toList = some "Discover" := by
  refine ⟨rfl, ?_, getIssuer_601100⟩
  intro card
  rw [getIssuer, specClassify, getIssuerAux_eq_findSome card []]
  simp only [List.nil_append]

/-- Witness for C6 at the concrete input "30". -/
theorem C6_classification_witness : getIssuer ['3', '0'] = specClassify ['3', '0'] :=
  C6_classification.2.1 ['3', '0']

/-- Claim C7: `generate("30")` resolves the Diners Club override (digit count 14) from
    the issuer detected in the prefix: the response carries issuer "Diners Club" and a
    14-character card number passing `verify`, with `valid = true`. -/
theorem C7_generate30 (raw : List Char)
    (hraw : 8 ≤ (raw.filter Char.isDigit).length) :
    ∃ r, createCardGet ['3', '0'] raw = Except.ok r ∧
      r.issuer = some "Diners Club" ∧ r.cardNumber.length = 14 ∧
      boolCheck r.cardNumber = Except.ok true ∧ r.valid = true := by
  have hdc : digitCountFor (getIssuer ['3', '0']) = 14 := by rw [getIssuer_30]; rfl
  have hra : ((raw.filter Char.isDigit).reverse).all Char.isDigit = true := by
    rw [List.all_reverse]; exact filter_isDigit_all raw
  have hrl : 8 ≤ ((raw.filter Char.isDigit).reverse).length := by
    rw [List.length_reverse]; exact hraw
  obtain ⟨final, hgen, hfa, hfv, hfl, hfp⟩ :=
    genLoop_spec 14 ((raw.filter Char.isDigit).reverse) ['3', '0'] (by decide) hra
      (by norm_num) (by simp only [List.length_cons, List.length_nil]; omega)
  obtain ⟨cs, lastc, hcs, hlast, hbeq⟩ := boolCheck_ok_parts final hfv
  obtain ⟨t, ht⟩ := hfp
  have hhead : final.head? = some '3' := by rw [← ht]; rfl
  have hresp := createCardGet_eval ['3', '0'] raw final cs lastc '3' "Travel/Entertainment"
    (by rw [hdc]; exact hgen) hcs hlast hhead rfl
  rw [getIssuer_30] at hresp
  refine ⟨_, hresp, rfl, ?_, hfv, hbeq⟩
  rw [hfl]
  norm_num

/-- Witness for C7 at the concrete entropy string "0123456789". -/
theorem C7_generate30_witness :
    ∃ r, createCardGet ['3', '0'] "0123456789".toList = Except.ok r ∧
      r.issuer = some "Diners Club" ∧ r.cardNumber.length = 14 ∧
      boolCheck r.cardNumber = Except.ok true ∧ r.valid = true :=
  C7_generate30 _ (by decide)

/-- Claim C8: for every digit sequence s, exactly one check digit d in 0..9 makes
    `verify (s ++ [d])` true; altering the last digit of a Luhn-valid sequence to any
    other character makes `verify` return false; and the generator's trial loop over
    0..9 always succeeds, appending exactly that check digit. -/
theorem C8_unique_check_digit (s : List Char) (hs : s.all Char.isDigit = true) :
    (∃! d : Nat, d < 10 ∧ boolCheck (s ++ [Nat.digitChar d]) = Except.ok true) ∧
    (∀ c c2 : Char, boolCheck (s ++ [c]) = Except.ok true → c2 ≠ c →
      boolCheck (s ++ [c2]) = Except.ok false) ∧
    tryDigits s (List.range 10) = Except.ok (s ++ [Nat.digitChar (ckd s)]) := by
  refine ⟨⟨ckd s, ⟨ckd_lt s, boolCheck_self s hs⟩, ?_⟩, ?_, ?_⟩
  · rintro d ⟨hd, hv⟩
    rw [boolCheck_concat s _ hs] at hv
    exact (digitChar_beq_iff d hd (ckd s) (ckd_lt s)).mp (Except.ok.inj hv)
  · intro c c2 hv hne
    rw [boolCheck_concat s _ hs] at hv ⊢
    have hc : c = Nat.digitChar (ckd s) := eq_of_beq (Except.ok.inj hv)
    exact congrArg Except.ok (beq_eq_false_iff_ne.mpr (hc ▸ hne))
  · exact tryDigits_found s hs (List.range 10) (List.mem_range.mpr (ckd_lt s))
      (fun j hj => List.mem_range.mp hj)

/-- Witness for C8 at the concrete prefix "4". -/
theorem C8_unique_check_digit_witness :
    tryDigits ['4'] (List.range 10) = Except.ok (['4'] ++ [Nat.digitChar (ckd ['4'])]) :=
  (C8_unique_check_digit ['4'] (by decide)).2.2

/-- Claim C9 counterexample: the enumerated range's upper endpoint is exclusive:
    the 6-digit prefix "622925" is NOT classified as Discover — it matches no issuer,
    because Python's `range(622126, 622925)` stops at 622924. -/
theorem C9_counterexample :
    getIssuer "622925".toList = none ∧ getIssuer "622925".toList ≠ some "Discover" :=
  ⟨getIssuer_622925, fun h => Option.noConfusion (getIssuer_622925 ▸ h)⟩

/-- Claim C9 (amended): the Issuer Range Table's enumerated ranges are inclusive of the
    lower endpoint and exclusive of the upper (Python `range` semantics): every 6-digit
    prefix from "622126" through "622924" classifies as issuer Discover. -/
theorem C9_amended (n : Nat) (h1 : 622126 ≤ n) (h2 : n ≤ 622924) :
    getIssuer (strNat n) = some "Discover" :=
  getIssuer_622 n h1 h2

/-- Witness for the amended C9 at the lower endpoint 622126. -/
theorem C9_amended_witness : getIssuer (strNat 622126) = some "Discover" :=
  C9_amended 622126 (by decide) (by decide)

/-- Claim C10: invariant of the generation loop — at the end of every iteration the
    accumulated card number satisfies `verify`, because the accepted check digit is
    retained: the iteration moves from `card` to
    `(card ++ [d]) ++ [accepted check digit]`, and that sequence passes `boolCheck`. -/
theorem C10_invariant (dc : Nat) (card rev : List Char) (d : Char)
    (hall : card.all Char.isDigit = true) (hd : d.isDigit = true)
    (hlt : card.length < dc) :
    boolCheck ((card ++ [d]) ++ [Nat.digitChar (ckd (card ++ [d]))]) = Except.ok true ∧
    genLoop dc card (d :: rev)
      = genLoop dc ((card ++ [d]) ++ [Nat.digitChar (ckd (card ++ [d]))]) rev := by
  have hall1 : (card ++ [d]).all Char.isDigit = true := by
    rw [List.all_append]; simp [hall, hd]
  exact ⟨boolCheck_self (card ++ [d]) hall1, genLoop_step dc card rev d hall hd hlt⟩

/-- Witness for C10 at a concrete state. -/
theorem C10_invariant_witness :
    boolCheck ((['3', '0'] ++ ['7']) ++ [Nat.digitChar (ckd (['3', '0'] ++ ['7']))])
      = Except.ok true ∧
    genLoop 14 ['3', '0'] ('7' :: [])
      = genLoop 14 ((['3', '0'] ++ ['7']) ++ [Nat.digitChar (ckd (['3', '0'] ++ ['7']))]) [] :=
  C10_invariant 14 ['3', '0'] [] '7' (by decide) (by decide) (by decide)
